import Mathlib

/-!
Verification of the authentication module of the Tile Inventory app
(`js/auth.js`).  The module keeps a user directory in durable storage
under the key `tia_users`, a volatile session record under `tia_session`,
and a durable remember-me pointer under `tia_remember`.  Every function
below is a direct shallow embedding of the corresponding JavaScript
function; ambient storage is passed explicitly.  JavaScript
`toLowerCase` on usernames (the app uses ASCII usernames) is modelled by
`lowerStr`, the clock `Date.now()` by an explicit `Nat` argument,
and string falsiness (`!s` true exactly on the empty string) by
comparison with `""`.
-/

/-- Model of JavaScript `toLowerCase()` on the ASCII usernames the app
uses: lower-case every character. -/
def lowerStr (s : String) : String :=
  ⟨s.data.map Char.toLower⟩

/-- A stored user, as built by `createUser`:
`{ id, username, passwordHash, role }`. -/
structure UserRecord where
  id : String
  username : String
  passwordHash : String
  role : String
deriving DecidableEq, Repr

/-- Model of `hashPassword` (SHA-256 via Web Crypto).  The digest
primitive is external to the repository; the code relies only on the
digest being a deterministic function of the plaintext, so it is
modelled as an abstract deterministic injective encoding of the
plaintext. -/
def hashPassword (password : String) : String :=
  "sha256:" ++ password

/-- A successfully JSON-parsed value found under the `tia_users` key:
either an array of well-formed user records, or any other JSON value
(number, object, array of non-records, ...), tagged by its text. -/
inductive StoredJson where
  | userArr (users : List UserRecord)
  | otherVal (tag : String)
deriving DecidableEq, Repr

/-- Raw state of the durable `tia_users` entry, partitioned by how
`loadUsers` discriminates it: absent (`getItem` yields `null`), the
empty string (falsy), a non-empty string on which `JSON.parse` throws,
or a string parsing to some JSON value. -/
inductive UsersSlot where
  | absent
  | emptyStr
  | unparseable (raw : String)
  | parsed (v : StoredJson)
deriving DecidableEq, Repr

/-- `loadUsers`: returns `[]` when the raw entry is falsy (absent or
empty) and when `JSON.parse` throws (the `catch` branch); otherwise
returns the parsed value verbatim. -/
def loadUsers : UsersSlot → StoredJson
  | .absent => .userArr []
  | .emptyStr => .userArr []
  | .unparseable _ => .userArr []
  | .parsed v => v

/-- Whether a parsed JSON value is an array of user records. -/
def StoredJson.isUserArr : StoredJson → Bool
  | .userArr _ => true
  | .otherVal _ => false

/-- `findUserByUsername`: first record of the loaded directory whose
username equals the query case-insensitively, else `null`.  The loaded
directory (result of `loadUsers` in the well-formed state) is passed
explicitly. -/
def findUserByUsername (users : List UserRecord) (username : String) :
    Option UserRecord :=
  users.find? (fun u => lowerStr u.username == lowerStr username)

/-- The two exceptions `createUser` can throw:
`'username and password required'` and `'User already exists'`. -/
inductive CreateErr where
  | invalidInput
  | duplicateUser
deriving DecidableEq, Repr

/-- `createUser(username, plainPassword, role)`.  Throws on a falsy
(empty) username or password, hashes, throws if a case-insensitive
match exists, otherwise appends a record with id `` `u_${Date.now()}` ``
and persists via `saveUsers`.  The pair returned is (result, persisted
directory after the call); on a throw the directory is the one loaded,
unchanged, since `saveUsers` is never reached.  The source computes the
digest before the duplicate check; the call is effect-free, so it is
inlined into the record here. -/
def createUser (username plainPassword role : String) (now : Nat)
    (users : List UserRecord) :
    Except CreateErr UserRecord × List UserRecord :=
  if username = "" ∨ plainPassword = "" then (.error .invalidInput, users)
  else if users.any (fun u => lowerStr u.username == lowerStr username) then
    (.error .duplicateUser, users)
  else
    let user : UserRecord :=
      { id := "u_" ++ Nat.repr now, username := username,
        passwordHash := hashPassword plainPassword, role := role }
    (.ok user, users ++ [user])

/-- `ensureDefaultAdmin`: when the loaded directory is empty, creates
the default `admin@example.com` / `admin123` admin account; any
`createUser` failure is caught and logged, leaving the directory as it
was — so the result in both branches is the second component of
`createUser`.  Returns the persisted directory after the call. -/
def ensureDefaultAdmin (now : Nat) (users : List UserRecord) :
    List UserRecord :=
  if users.length = 0 then
    (createUser "admin@example.com" "admin123" "admin" now users).2
  else users

/-- The volatile session object `{ id, username, role, createdAt }`
written by `setSession`; `createdAt` (an ISO timestamp string in JS) is
modelled by the clock value. -/
structure SessionRecord where
  id : String
  username : String
  role : String
  createdAt : Nat
deriving DecidableEq, Repr

/-- The session object `setSession` builds from a user and the clock. -/
def mkSessionRecord (user : UserRecord) (now : Nat) : SessionRecord :=
  { id := user.id, username := user.username, role := user.role,
    createdAt := now }

/-- Raw state of the volatile `tia_session` entry, partitioned by how
`getSession` discriminates it: absent, the empty string (falsy, hence
treated like absent), a non-empty string on which `JSON.parse` throws,
or the serialization of a session record (which parses back to it). -/
inductive SessionSlot where
  | absent
  | emptyStr
  | badJson (raw : String)
  | sess (s : SessionRecord)
deriving DecidableEq, Repr

/-- The storage visible to the session helpers: the volatile
`tia_session` entry and the durable `tia_remember` entry (`none` when
removed). -/
structure AuthState where
  session : SessionSlot
  remember : Option String
deriving DecidableEq, Repr

/-- `setSession(user, remember)`: stores the serialized session record;
stores the username under `tia_remember` when `remember` is set, and
removes that entry otherwise. -/
def setSession (user : UserRecord) (remember : Bool) (now : Nat)
    (_st : AuthState) : AuthState :=
  { session := .sess (mkSessionRecord user now),
    remember := if remember then some user.username else none }

/-- `clearSession`: removes the volatile session entry only; the
remember pointer is deliberately not touched. -/
def clearSession (st : AuthState) : AuthState :=
  { st with session := .absent }

/-- `getSession`: a falsy raw session entry triggers rehydration from
the remember pointer (lookup in the directory, then `setSession` and
return of the freshly stored record); a truthy raw entry is parsed,
with a parse failure caught and turned into `null`.  Returns the
JavaScript return value paired with the storage state after the call. -/
def getSession (users : List UserRecord) (now : Nat) (st : AuthState) :
    Option SessionRecord × AuthState :=
  match st.session with
  | .absent | .emptyStr =>
    match st.remember with
    | some remembered =>
      if remembered ≠ "" then
        match findUserByUsername users remembered with
        | some user =>
          let st' := setSession user true now st
          (some (mkSessionRecord user now), st')
        | none => (none, st)
      else (none, st)
    | none => (none, st)
  | .badJson _ => (none, st)
  | .sess s => (some s, st)

/-- `isAuthenticated`: `!!getSession()`. -/
def isAuthenticated (users : List UserRecord) (now : Nat)
    (st : AuthState) : Bool :=
  (getSession users now st).1.isSome

/-- The authentication result `{success: true, user}` or
`{success: false, message}`. -/
inductive AuthResult where
  | failure (message : String)
  | success (user : UserRecord)
deriving DecidableEq, Repr

/-- `authenticate(username, plainPassword)`: directory lookup, then
hash comparison against the stored digest. -/
def authenticate (users : List UserRecord) (username plainPassword : String) :
    AuthResult :=
  match findUserByUsername users username with
  | none => .failure "User not found"
  | some user =>
    if hashPassword plainPassword ≠ user.passwordHash then
      .failure "Invalid credentials"
    else .success user

/-- The directory invariant stated by the spec: no two records have
usernames equal under case-insensitive comparison. -/
def usernamesDistinct (users : List UserRecord) : Prop :=
  (users.map (fun u => lowerStr u.username)).Nodup

/-- Directory states reachable from an empty directory through the
public mutating operations (`createUser`, `ensureDefaultAdmin`). -/
inductive Reachable : List UserRecord → Prop where
  | nil : Reachable []
  | create (username plainPassword role : String) (now : Nat)
      {users : List UserRecord} : Reachable users →
      Reachable (createUser username plainPassword role now users).2
  | ensure (now : Nat) {users : List UserRecord} : Reachable users →
      Reachable (ensureDefaultAdmin now users)

/-- Well-formedness that every reachable directory enjoys: pairwise
case-insensitively distinct usernames, none of them empty. -/
def DirOk (users : List UserRecord) : Prop :=
  usernamesDistinct users ∧ ∀ u ∈ users, u.username ≠ ""

instance : DecidablePred usernamesDistinct := fun users =>
  inferInstanceAs (Decidable ((users.map _).Nodup))

instance : DecidablePred DirOk := fun _users =>
  inferInstanceAs (Decidable (_ ∧ _))

example : loadUsers (.parsed (.otherVal "5")) = .otherVal "5" := rfl

example :
    (createUser "a" "p" "admin" 5 []).1 =
      .ok ⟨"u_5", "a", hashPassword "p", "admin"⟩ := rfl

example :
    authenticate [⟨"u_0", "alice", hashPassword "pw", "admin"⟩] "ALICE" "pw" =
      .success ⟨"u_0", "alice", hashPassword "pw", "admin"⟩ := rfl

example :
    getSession [] 7 ⟨.absent, some "ghost"⟩ = (none, ⟨.absent, some "ghost"⟩) := rfl

example :
    getSession [⟨"u_0", "alice", hashPassword "pw", "admin"⟩] 9
        ⟨.emptyStr, some "alice"⟩ =
      (some ⟨"u_0", "alice", "admin", 9⟩,
        ⟨.sess ⟨"u_0", "alice", "admin", 9⟩, some "alice"⟩) := rfl

/-! ## Helper lemmas -/

lemma find_eq_none {users : List UserRecord} {username : String}
    (h : ∀ rec ∈ users, lowerStr rec.username ≠ lowerStr username) :
    findUserByUsername users username = none := by
  unfold findUserByUsername
  refine List.find?_eq_none.mpr ?_
  intro x hx
  simp only [beq_iff_eq]
  exact h x hx

lemma find_isSome {users : List UserRecord} {username : String}
    (h : ∃ rec ∈ users, lowerStr rec.username = lowerStr username) :
    (findUserByUsername users username).isSome = true := by
  unfold findUserByUsername
  refine List.find?_isSome.mpr ?_
  obtain ⟨r, hr, he⟩ := h
  exact ⟨r, hr, by simpa using he⟩

lemma find_mem_self {users : List UserRecord}
    (hnd : usernamesDistinct users) {u : UserRecord} (hu : u ∈ users) :
    findUserByUsername users u.username = some u := by
  induction users with
  | nil => cases hu
  | cons v rest ih =>
    have hnd' : lowerStr v.username ∉ rest.map (fun u => lowerStr u.username) ∧
        usernamesDistinct rest := by
      unfold usernamesDistinct at hnd
      simpa [usernamesDistinct, List.nodup_cons] using hnd
    rcases List.mem_cons.mp hu with rfl | hmem
    · unfold findUserByUsername
      exact List.find?_cons_of_pos _ (by simp)
    · have hne : (lowerStr v.username == lowerStr u.username) = false := by
        simp only [beq_eq_false_iff_ne, ne_eq]
        intro he
        exact hnd'.1 (he ▸ List.mem_map.mpr ⟨u, hmem, rfl⟩)
      unfold findUserByUsername at ih ⊢
      simp only [List.find?, hne]
      exact ih hnd'.2 hmem

lemma createUser_ok_elim {username plainPassword role : String} {now : Nat}
    {users users' : List UserRecord} {rec : UserRecord}
    (h : createUser username plainPassword role now users = (.ok rec, users')) :
    username ≠ "" ∧ plainPassword ≠ "" ∧
      (∀ v ∈ users, lowerStr v.username ≠ lowerStr username) ∧
      rec = ⟨"u_" ++ Nat.repr now, username, hashPassword plainPassword, role⟩ ∧
      users' = users ++ [rec] := by
  by_cases h1 : username = "" ∨ plainPassword = ""
  · rw [createUser, if_pos h1] at h
    exact absurd (congrArg Prod.fst h) (by simp)
  · by_cases h2 : users.any (fun u => lowerStr u.username == lowerStr username) = true
    · rw [createUser, if_neg h1, if_pos h2] at h
      exact absurd (congrArg Prod.fst h) (by simp)
    · rw [createUser, if_neg h1, if_neg h2] at h
      have hfst := congrArg Prod.fst h
      have hsnd := congrArg Prod.snd h
      simp only at hfst hsnd
      have hrec : rec =
          ⟨"u_" ++ Nat.repr now, username, hashPassword plainPassword, role⟩ := by
        cases hfst; rfl
      have hall : ∀ v ∈ users, lowerStr v.username ≠ lowerStr username := by
        intro v hv
        have := List.any_eq_false.mp (Bool.not_eq_true _ ▸ h2) v hv
        simpa using this
      refine ⟨fun he => h1 (Or.inl he), fun he => h1 (Or.inr he), hall, hrec, ?_⟩
      rw [hrec]
      exact hsnd.symm

lemma createUser_dirOk {users : List UserRecord} (hd : DirOk users)
    (username plainPassword role : String) (now : Nat) :
    DirOk (createUser username plainPassword role now users).2 := by
  rw [createUser]
  split
  · exact hd
  · split
    · exact hd
    · rename_i h1 h2
      have h2' : ∀ v ∈ users, lowerStr v.username ≠ lowerStr username := by
        intro v hv
        have h2f : users.any (fun u => lowerStr u.username == lowerStr username)
            = false := by
          revert h2; cases users.any (fun u => lowerStr u.username == lowerStr username) <;> simp
        have := List.any_eq_false.mp h2f v hv
        simpa using this
      constructor
      · have hd1 := hd.1
        unfold usernamesDistinct at hd1 ⊢
        simp only [List.map_append, List.map_cons, List.map_nil]
        rw [List.nodup_append]
        refine ⟨hd1, List.nodup_singleton _, ?_⟩
        intro x hx hy
        simp only [List.mem_singleton] at hy
        subst hy
        obtain ⟨v, hv, he⟩ := List.mem_map.mp hx
        exact h2' v hv he
      · intro u hu
        rcases List.mem_append.mp hu with hmem | hmem
        · exact hd.2 u hmem
        · simp only [List.mem_singleton] at hmem
          subst hmem
          exact fun he => h1 (Or.inl he)

lemma ensureDefaultAdmin_dirOk {users : List UserRecord} (hd : DirOk users)
    (now : Nat) : DirOk (ensureDefaultAdmin now users) := by
  rw [ensureDefaultAdmin]
  split
  · exact createUser_dirOk hd _ _ _ _
  · exact hd

lemma reachable_dirOk {users : List UserRecord} (h : Reachable users) :
    DirOk users := by
  induction h with
  | nil => exact ⟨List.nodup_nil, by simp⟩
  | create u p r n _ ih => exact createUser_dirOk ih u p r n
  | ensure n _ ih => exact ensureDefaultAdmin_dirOk ih n

/-! ## Injectivity of the decimal rendering used by `Date.now()` ids -/

/-- Decimal value of a digit character. -/
def digitVal (c : Char) : Nat := c.toNat - 48

/-- Decode a most-significant-first decimal digit list, starting from
accumulator `a`. -/
def decodeFrom (a : Nat) (l : List Char) : Nat :=
  l.foldl (fun acc c => 10 * acc + digitVal c) a

lemma decodeFrom_cons (a : Nat) (c : Char) (l : List Char) :
    decodeFrom a (c :: l) = decodeFrom (10 * a + digitVal c) l := rfl

lemma digitVal_digitChar {m : Nat} (h : m < 10) :
    digitVal (Nat.digitChar m) = m := by
  interval_cases m <;> rfl

lemma decodeFrom_toDigitsCore :
    ∀ (fuel n a : Nat) (acc : List Char), n < fuel →
      ∃ k, decodeFrom a (Nat.toDigitsCore 10 fuel n acc) =
        decodeFrom (a * 10 ^ k + n) acc := by
  intro fuel
  induction fuel with
  | zero => intro n a acc h; exact absurd h (Nat.not_lt_zero n)
  | succ fuel ih =>
    intro n a acc h
    by_cases h10 : n / 10 = 0
    · refine ⟨1, ?_⟩
      have hstep : Nat.toDigitsCore 10 (fuel + 1) n acc =
          Nat.digitChar (n % 10) :: acc := by
        simp only [Nat.toDigitsCore, h10, if_true]
      rw [hstep, decodeFrom_cons,
        digitVal_digitChar (Nat.mod_lt n (by norm_num))]
      have hn : n % 10 = n := Nat.mod_eq_of_lt (by omega)
      rw [hn]
      congr 1
      ring
    · have hlt : n / 10 < fuel := by omega
      obtain ⟨k, hk⟩ := ih (n / 10) a (Nat.digitChar (n % 10) :: acc) hlt
      refine ⟨k + 1, ?_⟩
      have hstep : Nat.toDigitsCore 10 (fuel + 1) n acc =
          Nat.toDigitsCore 10 fuel (n / 10) (Nat.digitChar (n % 10) :: acc) := by
        simp only [Nat.toDigitsCore, h10, if_false]
      rw [hstep, hk, decodeFrom_cons,
        digitVal_digitChar (Nat.mod_lt n (by norm_num))]
      congr 1
      have hdm : 10 * (n / 10) + n % 10 = n := by omega
      rw [pow_succ]
      conv_rhs => rw [← hdm]
      ring

lemma decodeFrom_toDigits (n : Nat) :
    decodeFrom 0 (Nat.toDigits 10 n) = n := by
  obtain ⟨k, hk⟩ :=
    decodeFrom_toDigitsCore (n + 1) n 0 [] (Nat.lt_succ_self n)
  unfold Nat.toDigits
  rw [hk]
  simp [decodeFrom]

lemma natRepr_inj {m n : Nat} (h : Nat.repr m = Nat.repr n) : m = n := by
  have hl : Nat.toDigits 10 m = Nat.toDigits 10 n := by
    have hd := congrArg String.data h
    simpa [Nat.repr, List.asString] using hd
  calc m = decodeFrom 0 (Nat.toDigits 10 m) := (decodeFrom_toDigits m).symm
    _ = decodeFrom 0 (Nat.toDigits 10 n) := by rw [hl]
    _ = n := decodeFrom_toDigits n

lemma string_append_left_cancel {s t₁ t₂ : String} (h : s ++ t₁ = s ++ t₂) :
    t₁ = t₂ := by
  have hd := congrArg String.data h
  simp only [String.data_append] at hd
  have hdata := List.append_cancel_left hd
  cases t₁
  cases t₂
  exact congrArg String.mk hdata

lemma lowerStr_eq_empty {s : String} (h : lowerStr s = "") : s = "" := by
  cases s with
  | mk data =>
    have hd := congrArg String.data h
    simp only [lowerStr, List.map_eq_nil_iff] at hd
    rw [hd]

/-! ## Claims -/

/-- Claim C1: for every username and plaintext, `authenticate` fails with
message `'User not found'` (the spec's `UserNotFound`) when no record
matches the username case-insensitively; otherwise it hashes the
plaintext and compares it against the located record's stored digest,
failing with `'Invalid credentials'` (the spec's `InvalidCredentials`)
on mismatch and returning success carrying the full stored record on
match. -/
theorem claim_C1_authenticate_verdicts (users : List UserRecord)
    (username plainPassword : String) :
    ((∀ rec ∈ users, lowerStr rec.username ≠ lowerStr username) →
      authenticate users username plainPassword = .failure "User not found") ∧
    ((∃ rec ∈ users, lowerStr rec.username = lowerStr username) →
      (findUserByUsername users username).isSome = true) ∧
    (∀ rec, findUserByUsername users username = some rec →
      (hashPassword plainPassword ≠ rec.passwordHash →
        authenticate users username plainPassword =
          .failure "Invalid credentials") ∧
      (hashPassword plainPassword = rec.passwordHash →
        authenticate users username plainPassword = .success rec)) := by
  refine ⟨?_, find_isSome, ?_⟩
  · intro h
    unfold authenticate
    rw [find_eq_none h]
  · intro rec hfind
    unfold authenticate
    rw [hfind]
    dsimp only
    constructor
    · intro hne
      rw [if_pos hne]
    · intro heq
      rw [if_neg (not_not_intro heq)]

theorem claim_C1_witness :
    authenticate [] "ghost" "pw" = .failure "User not found" ∧
    authenticate [⟨"u_0", "alice", hashPassword "pw", "admin"⟩] "ALICE" "bad"
      = .failure "Invalid credentials" ∧
    authenticate [⟨"u_0", "alice", hashPassword "pw", "admin"⟩] "ALICE" "pw"
      = .success ⟨"u_0", "alice", hashPassword "pw", "admin"⟩ :=
  ⟨(claim_C1_authenticate_verdicts [] "ghost" "pw").1 (by decide),
    ((claim_C1_authenticate_verdicts
      [⟨"u_0", "alice", hashPassword "pw", "admin"⟩] "ALICE" "bad").2.2
      ⟨"u_0", "alice", hashPassword "pw", "admin"⟩ rfl).1 (by decide),
    ((claim_C1_authenticate_verdicts
      [⟨"u_0", "alice", hashPassword "pw", "admin"⟩] "ALICE" "pw").2.2
      ⟨"u_0", "alice", hashPassword "pw", "admin"⟩ rfl).2 rfl⟩

/-- Claim C2: `createUser` fails with the duplicate-user exception
(`'User already exists'`, the spec's `DuplicateUser`) whenever a
case-insensitive match already exists — in particular on a second create
whose username differs from a successfully created one only in letter
case — and fails with the invalid-input exception
(`'username and password required'`, the spec's `InvalidInput`) whenever
the username or the plaintext is empty; in every failure case the
persisted directory is returned unchanged.  (When the username is empty
and a match also exists, the empty-input check runs first, so the two
failure clauses are stated on disjoint inputs.) -/
theorem claim_C2_create_failures (username plainPassword role : String)
    (now : Nat) (users : List UserRecord) :
    ((username = "" ∨ plainPassword = "") →
      createUser username plainPassword role now users =
        (.error .invalidInput, users)) ∧
    (username ≠ "" → plainPassword ≠ "" →
      (∃ rec ∈ users, lowerStr rec.username = lowerStr username) →
      createUser username plainPassword role now users =
        (.error .duplicateUser, users)) ∧
    (∀ username' plainPassword' role' now' rec users',
      lowerStr username' = lowerStr username → plainPassword' ≠ "" →
      createUser username plainPassword role now users = (.ok rec, users') →
      createUser username' plainPassword' role' now' users' =
        (.error .duplicateUser, users')) := by
  refine ⟨?_, ?_, ?_⟩
  · intro h
    rw [createUser, if_pos h]
  · intro hu hp hex
    have hany : users.any (fun u => lowerStr u.username == lowerStr username)
        = true := by
      obtain ⟨rec, hmem, he⟩ := hex
      exact List.any_eq_true.mpr ⟨rec, hmem, by simpa using he⟩
    rw [createUser, if_neg (by simp [hu, hp]), if_pos hany]
  · intro username' plainPassword' role' now' rec users' hvar hp' hok
    obtain ⟨hu, hp, _, hrec, husers⟩ := createUser_ok_elim hok
    have hu' : username' ≠ "" := by
      intro he
      apply hu
      apply lowerStr_eq_empty
      rw [he] at hvar
      exact hvar.symm
    have hany : users'.any
        (fun u => lowerStr u.username == lowerStr username') = true := by
      refine List.any_eq_true.mpr ⟨rec, ?_, ?_⟩
      · rw [husers]
        exact List.mem_append_right _ (List.mem_singleton_self _)
      · rw [hrec]
        simp [hvar]
    rw [createUser, if_neg (by simp [hu', hp']), if_pos hany]

theorem claim_C2_witness :
    createUser "" "pw" "admin" 0 [] = (.error .invalidInput, []) ∧
    createUser "Alice" "pw" "admin" 1
        [⟨"u_0", "alice", hashPassword "x", "admin"⟩] =
      (.error .duplicateUser, [⟨"u_0", "alice", hashPassword "x", "admin"⟩]) ∧
    createUser "ALICE" "pw2" "viewer" 2
        [⟨"u_0", "alice", hashPassword "pw", "admin"⟩] =
      (.error .duplicateUser, [⟨"u_0", "alice", hashPassword "pw", "admin"⟩]) :=
  ⟨(claim_C2_create_failures "" "pw" "admin" 0 []).1 (Or.inl rfl),
    (claim_C2_create_failures "Alice" "pw" "admin" 1
      [⟨"u_0", "alice", hashPassword "x", "admin"⟩]).2.1 (by decide) (by decide)
      ⟨⟨"u_0", "alice", hashPassword "x", "admin"⟩, by decide⟩,
    (claim_C2_create_failures "alice" "pw" "admin" 0 []).2.2
      "ALICE" "pw2" "viewer" 2 ⟨"u_0", "alice", hashPassword "pw", "admin"⟩
      [⟨"u_0", "alice", hashPassword "pw", "admin"⟩] (by decide) (by decide) rfl⟩

/-- Claim C3 as stated is false: `loadUsers` returns the empty sequence
when the persisted data is absent or when `JSON.parse` throws, but when
the data is valid JSON that is not an array of user records (for
example the persisted string `5`, which parses to the number `5`) the
parsed value is returned verbatim, not a sequence of user records. -/
theorem claim_C3_counterexample :
    loadUsers (.parsed (.otherVal "5")) = .otherVal "5" ∧
    (loadUsers (.parsed (.otherVal "5"))).isUserArr = false :=
  ⟨rfl, rfl⟩

/-- Claim C3 amended: `loadUsers` never raises; it returns the empty
sequence when the persisted data is absent, empty, or fails JSON
parsing, and returns the successfully parsed value verbatim otherwise —
so the result is a sequence of user records exactly when the persisted
JSON was an array of user records. -/
theorem claim_C3_loadUsers_amended :
    loadUsers .absent = .userArr [] ∧
    loadUsers .emptyStr = .userArr [] ∧
    (∀ raw : String, loadUsers (.unparseable raw) = .userArr []) ∧
    (∀ v : StoredJson, loadUsers (.parsed v) = v) :=
  ⟨rfl, rfl, fun _ => rfl, fun _ => rfl⟩

/-- Claim C4: for every user `u` of the directory (which satisfies the
directory invariant and, as every record the system creates, has a
non-empty username), `setSession(u, true)` followed by `clearSession()`
— which removes only the volatile session entry and leaves the remember
pointer untouched — followed by `getSession()` returns a rehydrated
session record whose username and role are those of `u`, and re-persists
that record in volatile storage. -/
theorem claim_C4_remember_rehydrates (users : List UserRecord)
    (u : UserRecord) (hnd : usernamesDistinct users) (hu : u ∈ users)
    (hne : u.username ≠ "") (n₁ n₂ : Nat) (st₀ : AuthState) :
    clearSession (setSession u true n₁ st₀) =
      ⟨.absent, some u.username⟩ ∧
    getSession users n₂ (clearSession (setSession u true n₁ st₀)) =
      (some (mkSessionRecord u n₂),
        ⟨.sess (mkSessionRecord u n₂), some u.username⟩) ∧
    (mkSessionRecord u n₂).username = u.username ∧
    (mkSessionRecord u n₂).role = u.role := by
  refine ⟨rfl, ?_, rfl, rfl⟩
  have hfind := find_mem_self hnd hu
  show getSession users n₂ ⟨.absent, some u.username⟩ = _
  unfold getSession
  dsimp only
  rw [if_pos hne, hfind]
  rfl

theorem claim_C4_witness :
    usernamesDistinct [⟨"u_1", "alice", hashPassword "pw", "admin"⟩] ∧
    (⟨"u_1", "alice", hashPassword "pw", "admin"⟩ : UserRecord) ∈
      [⟨"u_1", "alice", hashPassword "pw", "admin"⟩] ∧
    ("alice" : String) ≠ "" ∧
    getSession [⟨"u_1", "alice", hashPassword "pw", "admin"⟩] 9
        (clearSession (setSession ⟨"u_1", "alice", hashPassword "pw", "admin"⟩
          true 4 ⟨.absent, none⟩)) =
      (some ⟨"u_1", "alice", "admin", 9⟩,
        ⟨.sess ⟨"u_1", "alice", "admin", 9⟩, some "alice"⟩) :=
  ⟨by decide, by decide, by decide,
    (claim_C4_remember_rehydrates
      [⟨"u_1", "alice", hashPassword "pw", "admin"⟩]
      ⟨"u_1", "alice", hashPassword "pw", "admin"⟩
      (by decide) (by decide) (by decide) 4 9 ⟨.absent, none⟩).2.1⟩

/-- Claim C5 as stated is false: when no volatile session record exists
and the remember pointer holds a username resolving to no user record,
`getSession()` does return absent, but the remember pointer is NOT
cleared — the state, pointer included, is returned unchanged (the
pointer stays stale). -/
theorem claim_C5_counterexample :
    getSession [] 7 ⟨.absent, some "ghost"⟩ = (none, ⟨.absent, some "ghost"⟩) ∧
    (getSession [] 7 ⟨.absent, some "ghost"⟩).2.remember = some "ghost" ∧
    (getSession [] 7 ⟨.absent, some "ghost"⟩).2.remember ≠ none :=
  ⟨rfl, rfl, by decide⟩

/-- Claim C5 amended: for every state with no volatile session record
and a remember pointer holding a username that resolves to no user
record in the directory, `getSession()` returns absent and leaves the
whole storage state — the remember pointer included — unchanged. -/
theorem claim_C5_stale_pointer_amended (users : List UserRecord) (now : Nat)
    (st : AuthState) (r : String) (hs : st.session = .absent)
    (hr : st.remember = some r)
    (hfind : findUserByUsername users r = none) :
    getSession users now st = (none, st) := by
  cases st with
  | mk sessionSlot rememberSlot =>
    simp only at hs hr
    subst hs
    subst hr
    by_cases hre : r = ""
    · subst hre
      rfl
    · unfold getSession
      dsimp only
      rw [if_pos hre, hfind]

theorem claim_C5_witness :
    (⟨.absent, some "ghost"⟩ : AuthState).session = .absent ∧
    (⟨.absent, some "ghost"⟩ : AuthState).remember = some "ghost" ∧
    findUserByUsername [] "ghost" = none ∧
    getSession [] 3 ⟨.absent, some "ghost"⟩ =
      (none, ⟨.absent, some "ghost"⟩) :=
  ⟨rfl, rfl, rfl,
    claim_C5_stale_pointer_amended [] 3 ⟨.absent, some "ghost"⟩ "ghost"
      rfl rfl rfl⟩

/-- Claim C6: every directory state reachable from the empty directory
through the public mutating operations (`createUser`,
`ensureDefaultAdmin`) has pairwise case-insensitively distinct
usernames, and both operations preserve this invariant. -/
theorem claim_C6_invariant (users : List UserRecord)
    (h : Reachable users) : usernamesDistinct users :=
  (reachable_dirOk h).1

theorem claim_C6_witness :
    usernamesDistinct
      (createUser "Alice" "pw" "admin" 3 (ensureDefaultAdmin 0 [])).2 :=
  claim_C6_invariant _
    (Reachable.create "Alice" "pw" "admin" 3 (Reachable.ensure 0 Reachable.nil))

/-- Claim C7: after a successful `createUser(u, p, r)` (so `u` and `p`
are non-empty), `findUserByUsername` applied to any case variant of `u`
— its uppercase form included — returns the new record, whose
`passwordHash` is the digest of `p` and whose stored username is `u`
verbatim. -/
theorem claim_C7_create_find (username plainPassword role : String)
    (now : Nat) (users users' : List UserRecord) (rec : UserRecord)
    (hok : createUser username plainPassword role now users = (.ok rec, users'))
    (variant : String) (hvar : lowerStr variant = lowerStr username) :
    findUserByUsername users' variant = some rec ∧
    rec.passwordHash = hashPassword plainPassword ∧
    rec.username = username := by
  obtain ⟨_, _, hnomatch, hrec, husers⟩ := createUser_ok_elim hok
  subst husers
  refine ⟨?_, by rw [hrec], by rw [hrec]⟩
  unfold findUserByUsername
  rw [List.find?_append]
  have h1 : List.find? (fun u => lowerStr u.username == lowerStr variant)
      users = none := by
    refine List.find?_eq_none.mpr ?_
    intro x hx
    simp only [beq_iff_eq, hvar]
    exact hnomatch x hx
  have hpred : (lowerStr rec.username == lowerStr variant) = true := by
    rw [hrec]
    simp [hvar]
  rw [h1]
  simp [List.find?, hpred]

theorem claim_C7_witness :
    createUser "alice" "pw" "admin" 0 [] =
      (.ok ⟨"u_0", "alice", hashPassword "pw", "admin"⟩,
        [⟨"u_0", "alice", hashPassword "pw", "admin"⟩]) ∧
    lowerStr "ALICE" = lowerStr "alice" ∧
    findUserByUsername [⟨"u_0", "alice", hashPassword "pw", "admin"⟩]
      "ALICE" = some ⟨"u_0", "alice", hashPassword "pw", "admin"⟩ ∧
    (⟨"u_0", "alice", hashPassword "pw", "admin"⟩ : UserRecord).passwordHash
      = hashPassword "pw" :=
  ⟨rfl, rfl,
    (claim_C7_create_find "alice" "pw" "admin" 0 []
      [⟨"u_0", "alice", hashPassword "pw", "admin"⟩]
      ⟨"u_0", "alice", hashPassword "pw", "admin"⟩ rfl "ALICE" rfl).1,
    rfl⟩

/-- Claim C8 as stated is false: the id of a created record is
`` `u_${Date.now()}` ``, so two successful `createUser` calls that
observe the same clock millisecond — here both at time 5 — produce two
distinct records carrying the SAME id `u_5`. -/
theorem claim_C8_counterexample :
    (createUser "ann" "pw" "admin" 5 []).1 =
      .ok ⟨"u_5", "ann", hashPassword "pw", "admin"⟩ ∧
    (createUser "bob" "pw" "admin" 5 (createUser "ann" "pw" "admin" 5 []).2).1
      = .ok ⟨"u_5", "bob", hashPassword "pw", "admin"⟩ ∧
    (⟨"u_5", "ann", hashPassword "pw", "admin"⟩ : UserRecord) ≠
      ⟨"u_5", "bob", hashPassword "pw", "admin"⟩ ∧
    (⟨"u_5", "ann", hashPassword "pw", "admin"⟩ : UserRecord).id =
      (⟨"u_5", "bob", hashPassword "pw", "admin"⟩ : UserRecord).id :=
  ⟨rfl, rfl, by decide, rfl⟩

/-- Claim C8 amended: the id assigned by a successful `createUser` is
`u_` followed by the decimal rendering of the clock value observed by
the call, so records produced by two successful calls have distinct ids
whenever the calls observe distinct clock values; calls within the same
millisecond receive identical ids. -/
theorem claim_C8_ids_amended (u₁ p₁ r₁ : String) (n₁ : Nat)
    (us₁ us₁' : List UserRecord) (rec₁ : UserRecord)
    (u₂ p₂ r₂ : String) (n₂ : Nat)
    (us₂ us₂' : List UserRecord) (rec₂ : UserRecord)
    (h₁ : createUser u₁ p₁ r₁ n₁ us₁ = (.ok rec₁, us₁'))
    (h₂ : createUser u₂ p₂ r₂ n₂ us₂ = (.ok rec₂, us₂'))
    (hne : n₁ ≠ n₂) : rec₁.id ≠ rec₂.id := by
  obtain ⟨_, _, _, hrec₁, _⟩ := createUser_ok_elim h₁
  obtain ⟨_, _, _, hrec₂, _⟩ := createUser_ok_elim h₂
  rw [hrec₁, hrec₂]
  intro h
  exact hne (natRepr_inj (string_append_left_cancel h))

theorem claim_C8_witness :
    createUser "ann" "pw" "admin" 0 [] =
      (.ok ⟨"u_0", "ann", hashPassword "pw", "admin"⟩,
        [⟨"u_0", "ann", hashPassword "pw", "admin"⟩]) ∧
    createUser "bob" "pw" "admin" 1 [] =
      (.ok ⟨"u_1", "bob", hashPassword "pw", "admin"⟩,
        [⟨"u_1", "bob", hashPassword "pw", "admin"⟩]) ∧
    (0 : Nat) ≠ 1 ∧
    (⟨"u_0", "ann", hashPassword "pw", "admin"⟩ : UserRecord).id ≠
      (⟨"u_1", "bob", hashPassword "pw", "admin"⟩ : UserRecord).id :=
  ⟨rfl, rfl, by decide,
    claim_C8_ids_amended "ann" "pw" "admin" 0 []
      [⟨"u_0", "ann", hashPassword "pw", "admin"⟩]
      ⟨"u_0", "ann", hashPassword "pw", "admin"⟩
      "bob" "pw" "admin" 1 []
      [⟨"u_1", "bob", hashPassword "pw", "admin"⟩]
      ⟨"u_1", "bob", hashPassword "pw", "admin"⟩
      rfl rfl (by decide)⟩

/-- Claim C9: `ensureDefaultAdmin` on an empty directory creates exactly
the one default admin account (`admin@example.com`), on a non-empty
directory it is a no-op, and calling it twice starting from the empty
directory leaves exactly one user. -/
theorem claim_C9_bootstrap_idempotent :
    (∀ now, ensureDefaultAdmin now [] =
      [⟨"u_" ++ Nat.repr now, "admin@example.com",
        hashPassword "admin123", "admin"⟩]) ∧
    (∀ now (users : List UserRecord), users ≠ [] →
      ensureDefaultAdmin now users = users) ∧
    (∀ n₁ n₂, (ensureDefaultAdmin n₂ (ensureDefaultAdmin n₁ [])).length = 1)
    := by
  have hempty : ∀ now, ensureDefaultAdmin now [] =
      [⟨"u_" ++ Nat.repr now, "admin@example.com",
        hashPassword "admin123", "admin"⟩] := fun _ => rfl
  have hstep : ∀ now (users : List UserRecord), users ≠ [] →
      ensureDefaultAdmin now users = users := by
    intro now users h
    rw [ensureDefaultAdmin, if_neg (by simpa using h)]
  refine ⟨hempty, hstep, ?_⟩
  intro n₁ n₂
  rw [hempty n₁, hstep n₂ _ (by simp)]
  rfl

theorem claim_C9_witness :
    ([⟨"u_0", "admin@example.com", hashPassword "admin123", "admin"⟩] :
      List UserRecord) ≠ [] ∧
    ensureDefaultAdmin 7
        [⟨"u_0", "admin@example.com", hashPassword "admin123", "admin"⟩] =
      [⟨"u_0", "admin@example.com", hashPassword "admin123", "admin"⟩] :=
  ⟨by decide,
    claim_C9_bootstrap_idempotent.2.1 7
      [⟨"u_0", "admin@example.com", hashPassword "admin123", "admin"⟩]
      (by decide)⟩

/-- Claim C10 as stated is false: it quantifies over every state whose
volatile session entry holds a value that is not valid JSON, but the
empty string is such a value (`JSON.parse('')` throws) and is falsy, so
`getSession` treats it as an absent session and DOES attempt remember
rehydration — here returning a session and rewriting storage, with
`isAuthenticated()` true. -/
theorem claim_C10_counterexample :
    getSession [⟨"u_0", "alice", hashPassword "pw", "admin"⟩] 9
        ⟨.emptyStr, some "alice"⟩ =
      (some ⟨"u_0", "alice", "admin", 9⟩,
        ⟨.sess ⟨"u_0", "alice", "admin", 9⟩, some "alice"⟩) ∧
    isAuthenticated [⟨"u_0", "alice", hashPassword "pw", "admin"⟩] 9
        ⟨.emptyStr, some "alice"⟩ = true :=
  ⟨rfl, rfl⟩

/-- Claim C10 amended: for every state whose volatile session entry
holds a NON-EMPTY value that is not valid JSON (the truthy strings on
which `JSON.parse` throws), `getSession()` returns absent without
attempting rehydration and without modifying volatile or durable
storage, and `isAuthenticated()` consequently returns false. -/
theorem claim_C10_badjson_amended (users : List UserRecord) (now : Nat)
    (st : AuthState) (raw : String) (h : st.session = .badJson raw) :
    getSession users now st = (none, st) ∧
    isAuthenticated users now st = false := by
  cases st with
  | mk sessionSlot rememberSlot =>
    simp only at h
    subst h
    exact ⟨rfl, rfl⟩

theorem claim_C10_witness :
    (⟨.badJson "corrupt", some "alice"⟩ : AuthState).session =
      .badJson "corrupt" ∧
    getSession [⟨"u_0", "alice", hashPassword "pw", "admin"⟩] 4
        ⟨.badJson "corrupt", some "alice"⟩ =
      (none, ⟨.badJson "corrupt", some "alice"⟩) ∧
    isAuthenticated [⟨"u_0", "alice", hashPassword "pw", "admin"⟩] 4
        ⟨.badJson "corrupt", some "alice"⟩ = false :=
  ⟨rfl,
    (claim_C10_badjson_amended [⟨"u_0", "alice", hashPassword "pw", "admin"⟩]
      4 ⟨.badJson "corrupt", some "alice"⟩ "corrupt" rfl).1,
    (claim_C10_badjson_amended [⟨"u_0", "alice", hashPassword "pw", "admin"⟩]
      4 ⟨.badJson "corrupt", some "alice"⟩ "corrupt" rfl).2⟩
